import Mathlib

/-!
Verification of the polars-sql table-function resolver
(`polars-sql/src/table_functions.rs`).

The development shallowly embeds the Rust source:

* `PolarsTableFunctions`, `from_str`, `execute`, `read_csv`, `read_parquet`,
  `read_ipc` and `get_file_path_from_arg` are translated directly from the
  source file.
* The sqlparser argument AST (`FunctionArg`, `FunctionArgExpr`, `SqlExpr`,
  `SqlValue`, `Ident`) and its `Display` rendering are a model of the
  external `sqlparser` crate, restricted to the variants relevant here.
* Build-time capability flags (`feature = "csv"` etc.) are modelled by a
  record of booleans `FeatureFlags`; a variant whose flag is off cannot be
  produced by `from_str`, mirroring conditional compilation.
* The external lazy scan constructors (`LazyCsvReader::new(..).finish()`,
  `LazyFrame::scan_parquet`, `LazyFrame::scan_ipc`) are an abstract
  `Backend` record of fallible functions, since they live outside this file.
* Rust panics (the `args[0]` index on an empty slice, and the
  `unreachable!()` fallback of `execute`) are distinguished from returned
  `PolarsResult` errors by the result type `RtResult`.
-/

/-- The single-quote character, used by the sqlparser `Display` rendering. -/
def squote : Char := Char.ofNat 39

/-- The single-quote character as a one-character string. -/
def squoteStr : String := String.singleton squote

/-- Model of sqlparser's `escape_single_quote_string`: every embedded
single quote is doubled. -/
def escapeSingleQuote (s : String) : String :=
  String.join (s.data.map (fun c =>
    if c = squote then squoteStr ++ squoteStr else String.singleton c))

/-- Model of `sqlparser::ast::Ident`: an identifier with an optional
quote style character. -/
structure Ident where
  value : String
  quote_style : Option Char
deriving DecidableEq

/-- Rendering of `Ident` (model of its `Display` impl). -/
def Ident.render (i : Ident) : String :=
  match i.quote_style with
  | none => i.value
  | some q =>
      if q = '[' then "[" ++ i.value ++ "]"
      else String.singleton q ++ i.value ++ String.singleton q

/-- Model of `sqlparser::ast::Value`, restricted to the literal shapes the
resolver distinguishes. -/
inductive SqlValue where
  | SingleQuotedString (s : String)
  | DoubleQuotedString (s : String)
  | Number (n : String) (long : Bool)
  | Boolean (b : Bool)
  | Null
deriving DecidableEq

/-- Rendering of `SqlValue` (model of its `Display` impl). -/
def SqlValue.render : SqlValue → String
  | .SingleQuotedString s => squoteStr ++ escapeSingleQuote s ++ squoteStr
  | .DoubleQuotedString s => "\"" ++ s ++ "\""
  | .Number n long => n ++ (if long then "L" else "")
  | .Boolean b => if b then "true" else "false"
  | .Null => "NULL"

/-- Model of `sqlparser::ast::Expr`, restricted to the variants exercised
by table-function arguments: literal values, column references and
compound (dotted) column references. -/
inductive SqlExpr where
  | Value (v : SqlValue)
  | Identifier (i : Ident)
  | CompoundIdentifier (parts : List Ident)
deriving DecidableEq

/-- Rendering of `SqlExpr` (model of its `Display` impl). -/
def SqlExpr.render : SqlExpr → String
  | .Value v => v.render
  | .Identifier i => i.render
  | .CompoundIdentifier parts => String.intercalate "." (parts.map Ident.render)

/-- Model of `sqlparser::ast::FunctionArgExpr`. -/
inductive FunctionArgExpr where
  | Expr (e : SqlExpr)
  | QualifiedWildcard (name : List Ident)
  | Wildcard
deriving DecidableEq

/-- Rendering of `FunctionArgExpr` (model of its `Display` impl). -/
def FunctionArgExpr.render : FunctionArgExpr → String
  | .Expr e => e.render
  | .QualifiedWildcard name => String.intercalate "." (name.map Ident.render) ++ ".*"
  | .Wildcard => "*"

/-- Model of `sqlparser::ast::FunctionArg`: a named (`name => arg`) or
unnamed (positional) argument. -/
inductive FunctionArg where
  | Named (name : Ident) (arg : FunctionArgExpr)
  | Unnamed (arg : FunctionArgExpr)
deriving DecidableEq

/-- Rendering of `FunctionArg` (model of its `Display` impl), the text
interpolated into the error message of `get_file_path_from_arg`. -/
def FunctionArg.render : FunctionArg → String
  | .Named name arg => name.render ++ " => " ++ arg.render
  | .Unnamed arg => arg.render

/-- Model of `polars_core::prelude::PolarsError`, restricted to the
variant this file constructs (`ComputeError`) plus a representative
backend-error variant (`IoError`) so that backend failures are
distinguishable from resolver failures. -/
inductive PolarsError where
  | ComputeError (msg : String)
  | IoError (msg : String)
deriving DecidableEq

/-- Why a modelled Rust execution panicked. -/
inductive PanicKind where
  | indexOutOfBounds
  | unreachableCode
deriving DecidableEq

/-- Outcome of running a Rust function that may panic, return an error
through `PolarsResult`, or succeed. -/
inductive RtResult (α : Type) where
  | panicked (k : PanicKind)
  | err (e : PolarsError)
  | ok (a : α)
deriving DecidableEq

/-- `true` iff the outcome is a returned (non-panic) error. -/
def RtResult.isErr {α : Type} : RtResult α → Bool
  | .err _ => true
  | _ => false

/-- The build-time capability flags `feature = "csv"`, `feature = "parquet"`,
`feature = "ipc"` of the source file, modelled as booleans. -/
structure FeatureFlags where
  csv : Bool
  parquet : Bool
  ipc : Bool
deriving DecidableEq

/-- All three capability flags enabled. -/
def allOn : FeatureFlags := ⟨true, true, true⟩

/-- The enum `PolarsTableFunctions` of the source file. In Rust each
variant exists only under its capability flag; here all three variants
exist and `enabled` below records which ones a given build configuration
can actually construct. -/
inductive PolarsTableFunctions where
  | ReadCsv
  | ReadParquet
  | ReadIpc
deriving DecidableEq

/-- Whether a variant of `PolarsTableFunctions` is compiled in under the
given capability flags. -/
def enabled (cfg : FeatureFlags) : PolarsTableFunctions → Bool
  | .ReadCsv => cfg.csv
  | .ReadParquet => cfg.parquet
  | .ReadIpc => cfg.ipc

/-- The SQL-visible name of each variant. -/
def nameOf : PolarsTableFunctions → String
  | .ReadCsv => "read_csv"
  | .ReadParquet => "read_parquet"
  | .ReadIpc => "read_ipc"

/-- `FromStr::from_str` for `PolarsTableFunctions`: case-sensitive match
against the capability-enabled names; anything else produces the
`ComputeError` built from the offending name. An arm whose feature flag
is off is absent from the Rust `match`, so its name falls through to the
default arm; that is modelled by the conjunction with the flag. -/
def from_str (cfg : FeatureFlags) (s : String) :
    Except PolarsError PolarsTableFunctions :=
  if s = "read_csv" ∧ cfg.csv then .ok .ReadCsv
  else if s = "read_parquet" ∧ cfg.parquet then .ok .ReadParquet
  else if s = "read_ipc" ∧ cfg.ipc then .ok .ReadIpc
  else .error (.ComputeError
    (squoteStr ++ s ++ squoteStr ++ " is not a supported table function"))

/-- The external lazy scan constructors used by the three readers
(`LazyCsvReader::new(&path).finish()`, `LazyFrame::scan_parquet(&path,
Default::default())`, `LazyFrame::scan_ipc(&path, Default::default())`),
abstracted as fallible functions of the path, each with its per-format
default options already applied. `Frame` stands for `LazyFrame`. -/
structure Backend (Frame : Type) where
  csvScan : String → Except PolarsError Frame
  parquetScan : String → Except PolarsError Frame
  ipcScan : String → Except PolarsError Frame

/-- `PolarsTableFunctions::get_file_path_from_arg`: accepts exactly an
unnamed single-quoted string literal, otherwise errors with the rendered
argument. The Rust method takes `&self`, hence the `self` parameter,
which the body never inspects. -/
def get_file_path_from_arg (self : PolarsTableFunctions) (arg : FunctionArg) :
    Except PolarsError String :=
  match arg with
  | .Unnamed (.Expr (.Value (.SingleQuotedString s))) => .ok s
  | _ => .error (.ComputeError
      ("Only a single quoted string is accepted as the first parameter. Instead received: "
        ++ arg.render))

/-- `PolarsTableFunctions::read_csv`: `args[0]` panics on an empty slice;
otherwise extract the path, then build the lazy CSV scan, propagating
either failure; on success return `(path, frame)`. -/
def read_csv {Frame : Type} (B : Backend Frame) (self : PolarsTableFunctions)
    (args : List FunctionArg) : RtResult (String × Frame) :=
  match args with
  | [] => .panicked .indexOutOfBounds
  | a :: _ =>
      match get_file_path_from_arg self a with
      | .error e => .err e
      | .ok path =>
          match B.csvScan path with
          | .error e => .err e
          | .ok lf => .ok (path, lf)

/-- `PolarsTableFunctions::read_parquet`, same shape as `read_csv` with
the Parquet scan constructor. -/
def read_parquet {Frame : Type} (B : Backend Frame) (self : PolarsTableFunctions)
    (args : List FunctionArg) : RtResult (String × Frame) :=
  match args with
  | [] => .panicked .indexOutOfBounds
  | a :: _ =>
      match get_file_path_from_arg self a with
      | .error e => .err e
      | .ok path =>
          match B.parquetScan path with
          | .error e => .err e
          | .ok lf => .ok (path, lf)

/-- `PolarsTableFunctions::read_ipc`, same shape as `read_csv` with the
IPC scan constructor. -/
def read_ipc {Frame : Type} (B : Backend Frame) (self : PolarsTableFunctions)
    (args : List FunctionArg) : RtResult (String × Frame) :=
  match args with
  | [] => .panicked .indexOutOfBounds
  | a :: _ =>
      match get_file_path_from_arg self a with
      | .error e => .err e
      | .ok path =>
          match B.ipcScan path with
          | .error e => .err e
          | .ok lf => .ok (path, lf)

/-- `PolarsTableFunctions::execute`: dispatch on the variant to the
matching reader. In Rust a match arm exists only when its variant's flag
is on; a variant whose flag is off cannot exist, so the `_ =>
unreachable!()` fallback is dead code. Here the flag guard makes that
fallback an explicit `unreachableCode` panic on the junk values the
embedding cannot exclude. -/
def execute {Frame : Type} (B : Backend Frame) (cfg : FeatureFlags)
    (self : PolarsTableFunctions) (args : List FunctionArg) :
    RtResult (String × Frame) :=
  match self with
  | .ReadCsv =>
      if cfg.csv then read_csv B self args else .panicked .unreachableCode
  | .ReadParquet =>
      if cfg.parquet then read_parquet B self args else .panicked .unreachableCode
  | .ReadIpc =>
      if cfg.ipc then read_ipc B self args else .panicked .unreachableCode

/-- The scan constructor of the backend matching a given kind. -/
def scanOf {Frame : Type} : PolarsTableFunctions → Backend Frame →
    String → Except PolarsError Frame
  | .ReadCsv => Backend.csvScan
  | .ReadParquet => Backend.parquetScan
  | .ReadIpc => Backend.ipcScan

/-- Whether a `FunctionArg` is an unnamed single-quoted string literal,
the one shape `get_file_path_from_arg` accepts. -/
def isSingleQuotedLiteral : FunctionArg → Bool
  | .Unnamed (.Expr (.Value (.SingleQuotedString _))) => true
  | _ => false

/-- Two successive calls of `execute` with identical inputs. -/
def runTwice {Frame : Type} (B : Backend Frame) (cfg : FeatureFlags)
    (self : PolarsTableFunctions) (args : List FunctionArg) :
    RtResult (String × Frame) × RtResult (String × Frame) :=
  (execute B cfg self args, execute B cfg self args)

/-- A concrete backend over `Frame := String` whose scans always succeed,
recording the format and path, used to evaluate theorems at concrete
inputs. -/
def okBackend : Backend String :=
  ⟨fun p => .ok ("csv:" ++ p), fun p => .ok ("parquet:" ++ p),
    fun p => .ok ("ipc:" ++ p)⟩

/-- A concrete backend over `Frame := String` whose scans always fail
with an `IoError` naming the path. -/
def failBackend : Backend String :=
  ⟨fun p => .error (.IoError ("csv:" ++ p)),
    fun p => .error (.IoError ("parquet:" ++ p)),
    fun p => .error (.IoError ("ipc:" ++ p))⟩

/-- `true` iff an `Except` value is a success. -/
def exceptIsOk {ε α : Type} : Except ε α → Bool
  | .ok _ => true
  | .error _ => false

/-! ### Helper lemmas shared by the claim theorems -/

theorem get_path_ok (self : PolarsTableFunctions) (s : String) :
    get_file_path_from_arg self
      (.Unnamed (.Expr (.Value (.SingleQuotedString s)))) = .ok s := rfl

theorem get_path_err (self : PolarsTableFunctions) (a : FunctionArg)
    (h : isSingleQuotedLiteral a = false) :
    get_file_path_from_arg self a = .error (.ComputeError
      ("Only a single quoted string is accepted as the first parameter. Instead received: "
        ++ a.render)) := by
  cases a with
  | Named n arg => rfl
  | Unnamed arg =>
    cases arg with
    | QualifiedWildcard name => rfl
    | Wildcard => rfl
    | Expr e =>
      cases e with
      | Identifier i => rfl
      | CompoundIdentifier parts => rfl
      | Value v =>
        cases v with
        | SingleQuotedString s => simp [isSingleQuotedLiteral] at h
        | DoubleQuotedString s => rfl
        | Number n long => rfl
        | Boolean b => rfl
        | Null => rfl

theorem get_path_self_irrelevant (k1 k2 : PolarsTableFunctions)
    (a : FunctionArg) :
    get_file_path_from_arg k1 a = get_file_path_from_arg k2 a := rfl

/-! ### Claim theorems -/

/-- C1: `from_str` succeeds returning kind `k` iff the name is the exact,
case-sensitive name of a capability-enabled variant; every other name
(including names of variants whose capability flag is disabled) fails
with the unsupported-function `ComputeError` whose message contains the
offending name verbatim. -/
theorem from_str_correct (cfg : FeatureFlags) (s : String) :
    (∀ k : PolarsTableFunctions,
        from_str cfg s = .ok k ↔ (s = nameOf k ∧ enabled cfg k = true)) ∧
    (∀ e : PolarsError, from_str cfg s = .error e →
        ∃ pre post : String, e = .ComputeError (pre ++ s ++ post)) := by
  unfold from_str
  split_ifs with h1 h2 h3
  · obtain ⟨hs, hc⟩ := h1
    subst hs
    refine ⟨fun k => ?_, fun e he => by simp at he⟩
    cases k <;> simp [nameOf, enabled, hc]
  · obtain ⟨hs, hc⟩ := h2
    subst hs
    refine ⟨fun k => ?_, fun e he => by simp at he⟩
    cases k <;> simp [nameOf, enabled, hc]
  · obtain ⟨hs, hc⟩ := h3
    subst hs
    refine ⟨fun k => ?_, fun e he => by simp at he⟩
    cases k <;> simp [nameOf, enabled, hc]
  · refine ⟨fun k => ?_, fun e he => ?_⟩
    · cases k <;> simp [nameOf, enabled] <;> intro hs <;> subst hs <;> simp_all
    · refine ⟨squoteStr, squoteStr ++ " is not a supported table function", ?_⟩
      simp at he
      simp [← he, String.append_assoc]

/-- C1 witness: with all flags on, `"read_csv"` parses to `ReadCsv`. -/
theorem from_str_correct_witness :
    from_str allOn "read_csv" = .ok .ReadCsv :=
  ((from_str_correct allOn "read_csv").1 .ReadCsv).2 ⟨rfl, rfl⟩

/-- C2 counterexample: with every flag on and a backend that always
succeeds, `execute` on `ReadCsv` with an empty argument list panics with
an index-out-of-bounds failure; it does not return an error to the
caller. -/
theorem execute_empty_args_cex :
    execute okBackend allOn .ReadCsv [] = .panicked .indexOutOfBounds ∧
    (execute okBackend allOn .ReadCsv ([] : List FunctionArg)).isErr = false :=
  ⟨rfl, rfl⟩

/-- C2 (amended): for every enabled kind, calling `execute` with an empty
argument list panics with an index-out-of-bounds failure (the `args[0]`
access) instead of returning an argument-count error; no out-of-bounds
data is read. -/
theorem execute_empty_args_panics {Frame : Type} (B : Backend Frame)
    (cfg : FeatureFlags) (k : PolarsTableFunctions)
    (h : enabled cfg k = true) :
    execute B cfg k [] = .panicked .indexOutOfBounds := by
  cases k <;> simp_all [execute, enabled, read_csv, read_parquet, read_ipc]

/-- C2 witness: the amended statement at `ReadCsv` with all flags on. -/
theorem execute_empty_args_panics_witness :
    execute okBackend allOn .ReadCsv [] = .panicked .indexOutOfBounds :=
  execute_empty_args_panics okBackend allOn .ReadCsv rfl

/-- C3: for every enabled kind and non-empty argument list whose first
argument is not an unnamed single-quoted string literal, `execute`
returns the invalid-argument `ComputeError` whose message ends with the
rejected argument's textual rendering — never a panic and never a
default value. -/
theorem execute_invalid_first_arg {Frame : Type} (B : Backend Frame)
    (cfg : FeatureFlags) (k : PolarsTableFunctions)
    (a : FunctionArg) (rest : List FunctionArg)
    (henabled : enabled cfg k = true)
    (hshape : isSingleQuotedLiteral a = false) :
    execute B cfg k (a :: rest) = .err (.ComputeError
      ("Only a single quoted string is accepted as the first parameter. Instead received: "
        ++ a.render)) := by
  cases k <;>
    simp_all [execute, enabled, read_csv, read_parquet, read_ipc, get_path_err]

/-- C3 witness: a named argument `foo => 'a.csv'` on `ReadCsv` is
rejected with the invalid-argument message. -/
theorem execute_invalid_first_arg_witness :
    execute okBackend allOn .ReadCsv
      [FunctionArg.Named ⟨"foo", none⟩ (.Expr (.Value (.SingleQuotedString "a.csv")))] =
    .err (.ComputeError
      ("Only a single quoted string is accepted as the first parameter. Instead received: "
        ++ (FunctionArg.Named ⟨"foo", none⟩
              (.Expr (.Value (.SingleQuotedString "a.csv")))).render)) :=
  execute_invalid_first_arg okBackend allOn .ReadCsv _ [] rfl rfl

/-- C4: whenever `execute` on `ReadCsv` with a single-quoted string
literal argument `s` succeeds, the name component of the result is
exactly `s` — no normalization, trimming or quoting transformation. -/
theorem read_csv_name_verbatim {Frame : Type} (B : Backend Frame)
    (cfg : FeatureFlags) (s name : String) (lf : Frame)
    (h : execute B cfg .ReadCsv
        [.Unnamed (.Expr (.Value (.SingleQuotedString s)))] = .ok (name, lf)) :
    name = s := by
  by_cases hc : cfg.csv = true
  · simp only [execute, hc, if_true, read_csv, get_file_path_from_arg] at h
    cases hscan : B.csvScan s <;> rw [hscan] at h <;> simp at h
    exact h.1.symm
  · simp only [execute, hc, if_false, Bool.false_eq_true] at h
    simp at h

/-- C4 witness: `read_csv` on the literal `a.csv` with a succeeding
backend yields the name `a.csv` verbatim. -/
theorem read_csv_name_verbatim_witness :
    execute okBackend allOn .ReadCsv
      [.Unnamed (.Expr (.Value (.SingleQuotedString "a.csv")))] =
      .ok ("a.csv", "csv:a.csv") ∧ ("a.csv" : String) = "a.csv" :=
  ⟨rfl, read_csv_name_verbatim okBackend allOn "a.csv" "a.csv" "csv:a.csv" rfl⟩

/-- C5: for every enabled kind and non-empty argument list, `execute`
dispatches to exactly the backend routine matching the kind: it extracts
the path from the first argument and only then calls that kind's scan
constructor on the extracted path; when extraction fails, the result is
independent of the backend (no scan constructor is consulted). -/
theorem execute_dispatch {Frame : Type} (B : Backend Frame)
    (cfg : FeatureFlags) (k : PolarsTableFunctions)
    (a : FunctionArg) (rest : List FunctionArg)
    (h : enabled cfg k = true) :
    (execute B cfg k (a :: rest) =
      match get_file_path_from_arg k a with
      | .error e => .err e
      | .ok path =>
          match scanOf k B path with
          | .error e => .err e
          | .ok lf => .ok (path, lf)) ∧
    (exceptIsOk (get_file_path_from_arg k a) = false →
      ∀ B2 : Backend Frame,
        execute B cfg k (a :: rest) = execute B2 cfg k (a :: rest)) := by
  constructor
  · cases k <;>
      simp_all [execute, enabled, scanOf, read_csv, read_parquet, read_ipc]
  · intro hfail B2
    cases hget : get_file_path_from_arg k a with
    | ok path => rw [hget] at hfail; simp [exceptIsOk] at hfail
    | error e =>
        cases k <;>
          simp_all [execute, enabled, read_csv, read_parquet, read_ipc, hget]

/-- C5 witness: with all flags on, `ReadParquet` on the literal `b.pq`
invokes the Parquet scan of the backend. -/
theorem execute_dispatch_witness :
    execute okBackend allOn .ReadParquet
      [.Unnamed (.Expr (.Value (.SingleQuotedString "b.pq")))] =
      match get_file_path_from_arg .ReadParquet
          (.Unnamed (.Expr (.Value (.SingleQuotedString "b.pq")))) with
      | .error e => .err e
      | .ok path =>
          match scanOf .ReadParquet okBackend path with
          | .error e => .err e
          | .ok lf => .ok (path, lf) :=
  (execute_dispatch okBackend allOn .ReadParquet _ [] rfl).1

theorem read_csv_ne_unreachable {Frame : Type} (B : Backend Frame)
    (self : PolarsTableFunctions) (args : List FunctionArg) :
    read_csv B self args ≠ .panicked .unreachableCode := by
  unfold read_csv
  cases args with
  | nil => simp
  | cons a rest =>
    rcases hg : get_file_path_from_arg self a with e | path <;> simp [hg]
    rcases hs : B.csvScan path <;> simp [hs]

theorem read_parquet_ne_unreachable {Frame : Type} (B : Backend Frame)
    (self : PolarsTableFunctions) (args : List FunctionArg) :
    read_parquet B self args ≠ .panicked .unreachableCode := by
  unfold read_parquet
  cases args with
  | nil => simp
  | cons a rest =>
    rcases hg : get_file_path_from_arg self a with e | path <;> simp [hg]
    rcases hs : B.parquetScan path <;> simp [hs]

theorem read_ipc_ne_unreachable {Frame : Type} (B : Backend Frame)
    (self : PolarsTableFunctions) (args : List FunctionArg) :
    read_ipc B self args ≠ .panicked .unreachableCode := by
  unfold read_ipc
  cases args with
  | nil => simp
  | cons a rest =>
    rcases hg : get_file_path_from_arg self a with e | path <;> simp [hg]
    rcases hs : B.ipcScan path <;> simp [hs]

/-- C6: any kind obtained from a successful `from_str` is
capability-enabled, so `execute` never reaches the `unreachable!()`
fallback of its dispatch match, for every argument list, backend, and
flag combination. -/
theorem parsed_kind_never_unreachable {Frame : Type} (B : Backend Frame)
    (cfg : FeatureFlags) (s : String) (k : PolarsTableFunctions)
    (h : from_str cfg s = .ok k) :
    enabled cfg k = true ∧
    ∀ args : List FunctionArg,
      execute B cfg k args ≠ .panicked .unreachableCode := by
  have henabled : enabled cfg k = true := by
    unfold from_str at h
    split_ifs at h with h1 h2 h3 <;> simp_all [enabled] <;>
      simp [← h, enabled]
  refine ⟨henabled, fun args => ?_⟩
  cases k <;> simp_all [execute, enabled]
  · exact read_csv_ne_unreachable B .ReadCsv args
  · exact read_parquet_ne_unreachable B .ReadParquet args
  · exact read_ipc_ne_unreachable B .ReadIpc args

/-- C6 witness: `read_csv` parses to `ReadCsv` with all flags on, and
`execute` on it with an empty argument list is not the unreachable
fallback. -/
theorem parsed_kind_never_unreachable_witness :
    execute okBackend allOn .ReadCsv [] ≠ .panicked .unreachableCode :=
  (parsed_kind_never_unreachable okBackend allOn "read_csv" .ReadCsv rfl).2 []

/-- C7: for every enabled kind and argument list whose first argument is
a single-quoted string literal `s`, `execute` returns an error exactly
when the kind's scan constructor fails on `s`, with that error unchanged;
and it returns `ok` exactly when the scan constructor succeeds, pairing
`s` with the constructed frame. -/
theorem backend_error_passthrough {Frame : Type} (B : Backend Frame)
    (cfg : FeatureFlags) (k : PolarsTableFunctions) (s : String)
    (rest : List FunctionArg) (h : enabled cfg k = true) :
    (∀ e : PolarsError,
      execute B cfg k
          (.Unnamed (.Expr (.Value (.SingleQuotedString s))) :: rest) = .err e
        ↔ scanOf k B s = .error e) ∧
    (∀ p : String × Frame,
      execute B cfg k
          (.Unnamed (.Expr (.Value (.SingleQuotedString s))) :: rest) = .ok p
        ↔ ∃ lf, scanOf k B s = .ok lf ∧ p = (s, lf)) := by
  have hexec : execute B cfg k
      (.Unnamed (.Expr (.Value (.SingleQuotedString s))) :: rest) =
      match scanOf k B s with
      | .error e => .err e
      | .ok lf => .ok (s, lf) := by
    cases k <;>
      simp_all [execute, enabled, scanOf, read_csv, read_parquet, read_ipc,
        get_file_path_from_arg]
  rw [hexec]
  rcases hs : scanOf k B s with e2 | lf <;>
    refine ⟨fun e => ?_, fun p => ?_⟩ <;> simp
  exact eq_comm

/-- C7 witness: with a failing backend, `execute` on `ReadCsv` surfaces
the backend's `IoError` unchanged. -/
theorem backend_error_passthrough_witness :
    execute failBackend allOn .ReadCsv
      [.Unnamed (.Expr (.Value (.SingleQuotedString "a.csv")))] =
      .err (.IoError "csv:a.csv") :=
  ((backend_error_passthrough failBackend allOn .ReadCsv "a.csv" [] rfl).1
    (.IoError "csv:a.csv")).2 rfl

/-- C8: resolution is deterministic and stateless — the embedding of
`execute` and `from_str` is a pure function of its arguments, so two
calls of `execute` with identical kind, flags, backend and argument list
yield identical results (identical names, plans and errors), and
`from_str` depends only on the name and the build configuration. -/
theorem resolution_deterministic {Frame : Type} (B : Backend Frame)
    (cfg : FeatureFlags) (k : PolarsTableFunctions)
    (args : List FunctionArg) (s : String) :
    (runTwice B cfg k args).1 = (runTwice B cfg k args).2 ∧
    from_str cfg s = from_str cfg s :=
  ⟨rfl, rfl⟩

/-- C9: `execute` inspects only the first argument — for every enabled
kind and any two argument lists sharing the same head, the results are
equal, so trailing arguments of any shape are silently ignored. -/
theorem execute_ignores_trailing_args {Frame : Type} (B : Backend Frame)
    (cfg : FeatureFlags) (k : PolarsTableFunctions) (a : FunctionArg)
    (rest1 rest2 : List FunctionArg) (h : enabled cfg k = true) :
    execute B cfg k (a :: rest1) = execute B cfg k (a :: rest2) := by
  cases k <;> simp_all [execute, enabled, read_csv, read_parquet, read_ipc]

/-- C9 witness: a malformed trailing wildcard argument after a valid
literal leaves the result of `execute` unchanged. -/
theorem execute_ignores_trailing_args_witness :
    execute okBackend allOn .ReadCsv
      [.Unnamed (.Expr (.Value (.SingleQuotedString "a.csv")))] =
    execute okBackend allOn .ReadCsv
      [.Unnamed (.Expr (.Value (.SingleQuotedString "a.csv"))),
        .Named ⟨"bad", none⟩ .Wildcard] :=
  execute_ignores_trailing_args okBackend allOn .ReadCsv _ []
    [.Named ⟨"bad", none⟩ .Wildcard] rfl

/-- C10: `get_file_path_from_arg` never reads the kind it is called on:
its result is identical for all kinds; on an unnamed single-quoted
string literal it returns the literal's value, and on every other
argument it returns the `ComputeError` whose message is exactly the
fixed prefix followed by the argument's display rendering. -/
theorem get_file_path_kind_independent (k1 k2 : PolarsTableFunctions)
    (arg : FunctionArg) :
    get_file_path_from_arg k1 arg = get_file_path_from_arg k2 arg ∧
    (isSingleQuotedLiteral arg = false →
      get_file_path_from_arg k1 arg = .error (.ComputeError
        ("Only a single quoted string is accepted as the first parameter. Instead received: "
          ++ arg.render))) ∧
    (∀ s : String, arg = .Unnamed (.Expr (.Value (.SingleQuotedString s))) →
      get_file_path_from_arg k1 arg = .ok s) :=
  ⟨get_path_self_irrelevant k1 k2 arg,
    fun h => get_path_err k1 arg h,
    fun s hs => by rw [hs]; exact get_path_ok k1 s⟩

/-- C10 witness: a named wildcard argument is rejected with the exact
message, independent of the kind. -/
theorem get_file_path_kind_independent_witness :
    get_file_path_from_arg .ReadCsv (.Named ⟨"foo", none⟩ .Wildcard) =
      .error (.ComputeError
        ("Only a single quoted string is accepted as the first parameter. Instead received: "
          ++ (FunctionArg.Named ⟨"foo", none⟩ .Wildcard).render)) :=
  (get_file_path_kind_independent .ReadCsv .ReadParquet
    (.Named ⟨"foo", none⟩ .Wildcard)).2.1 rfl
